import Mathlib

/-!
Shallow embedding of the clinicflow-backend slot-availability and
queue-promotion engine, together with proofs checking the natural-language
specification against the code.

Times of day are modelled as minute-of-day naturals (the source stores
"HH:mm" strings and compares them lexicographically, which on well-formed
"HH:mm" strings agrees with the numeric order used here).  Calendar dates
are modelled as day indices (naturals) with day-of-week `date % 7`.
Database rows become Lean structures, tables become lists, and the Prisma
queries of the services become the corresponding list operations.
-/

namespace ClinicFlow

/-- Booking lifecycle states, from the Prisma BookingStatus enum. -/
inductive BookingStatus where
  | PENDING
  | CONFIRMED
  | CHECKED_IN
  | IN_PROGRESS
  | COMPLETED
  | CANCELLED
  | NO_SHOW
  | QUEUED
deriving DecidableEq

/-- User roles, from the Prisma UserRole enum (only the ones the booking
flow inspects). -/
inductive UserRole where
  | PATIENT
  | DOCTOR
  | RECEPTIONIST
  | ADMIN
deriving DecidableEq

/-- A user row (patient or doctor); `validateBooking` checks role and
activity. -/
structure UserRec where
  id : Nat
  role : UserRole
  isActive : Bool
deriving DecidableEq

/-- A service row: duration and per-slot capacity. -/
structure Service where
  id : Nat
  durationMinutes : Nat
  maxSlotsPerHour : Nat
  isActive : Bool
deriving DecidableEq

/-- A doctorWorkingHours row, keyed by (doctorId, dayOfWeek). -/
structure WorkingHours where
  doctorId : Nat
  dayOfWeek : Nat
  startTime : Nat
  endTime : Nat
deriving DecidableEq

/-- A doctorBreakTime row for a specific date. -/
structure BreakTime where
  doctorId : Nat
  date : Nat
  startTime : Nat
  endTime : Nat
deriving DecidableEq

/-- A doctorOffDay row. -/
structure OffDay where
  doctorId : Nat
  date : Nat
deriving DecidableEq

/-- A booking row.  `endTime` is stored in minutes (see `calculateEndTime`
for the string-level derivation the source performs). -/
structure Booking where
  id : Nat
  patientId : Nat
  doctorId : Nat
  serviceId : Nat
  bookingDate : Nat
  startTime : Nat
  endTime : Nat
  status : BookingStatus
deriving DecidableEq

/-- A bookingQueue row (unique on bookingId in the source schema). -/
structure QueueEntry where
  bookingId : Nat
  queuePosition : Nat
  estimatedWaitMinutes : Int
deriving DecidableEq

/-- A bookingStatusHistory row. -/
structure HistoryRow where
  bookingId : Nat
  oldStatus : Option BookingStatus
  newStatus : BookingStatus
  changedById : Nat
  reason : String
deriving DecidableEq

/-- The transactional store the services operate on. -/
structure DB where
  users : List UserRec
  services : List Service
  workingHours : List WorkingHours
  breakTimes : List BreakTime
  offDays : List OffDay
  bookings : List Booking
  queue : List QueueEntry
  history : List HistoryRow
deriving DecidableEq

/-- Error kinds thrown by the booking and queue services. -/
inductive BookingError where
  | notFound (what : String)
  | invalidDate
  | notAPatient
  | notADoctor
  | doctorInactive
  | noWorkingHours
  | outsideWorkingHours (ws we : Nat)
  | breakConflict (bs be : Nat)
  | offDayConflict
  | duplicateBooking
  | invalidTransition (src tgt : BookingStatus)
  | notInQueue
  | slotFull
deriving DecidableEq

/-! ## Time-Grid Calculator (schedules.service.ts) -/

/-- Fuel-indexed unfolding of the while-loop in `generateTimeSlots`
(schedules.service.ts lines 511-526): starting at `cur`, push a slot and
advance by 30 minutes while `cur + dur <= endMin`.  The fuel argument only
bounds the iteration count; `generateTimeSlots` supplies enough fuel for
the loop to run to completion. -/
def slotLoop : Nat → Nat → Nat → Nat → List Nat
  | 0, _, _, _ => []
  | fuel + 1, cur, endMin, dur =>
    if cur + dur ≤ endMin then cur :: slotLoop fuel (cur + 30) endMin dur
    else []

/-- `generateTimeSlots` from schedules.service.ts: candidate slot-start
times from `startMin` stepping by a fixed 30 minutes while the full
service duration still fits before `endMin`. -/
def generateTimeSlots (startMin endMin durationMinutes : Nat) : List Nat :=
  slotLoop (endMin + 1) startMin endMin durationMinutes

/-- `isTimeConflict` from schedules.service.ts lines 531-545: half-open
interval overlap between the slot `[t, t+d)` and the break `[bs, be)`. -/
def isTimeConflict (slotTime slotDuration breakStart breakEnd : Nat) : Bool :=
  decide (slotTime < breakEnd) && decide (slotTime + slotDuration > breakStart)

/-- The break-exclusion step of `getAvailableSlots` (schedules.service.ts
lines 474-484): drop every candidate that conflicts with any break. -/
def slotsAfterBreaks (startMin endMin durationMinutes : Nat)
    (breaks : List (Nat × Nat)) : List Nat :=
  (generateTimeSlots startMin endMin durationMinutes).filter
    (fun t => !(breaks.any (fun br => isTimeConflict t durationMinutes br.1 br.2)))

/-- Number of iterations of the slot loop; spec-side counting helper used
to state the grid-correctness property. -/
def slotCount (startMin endMin durationMinutes : Nat) : Nat :=
  if startMin + durationMinutes ≤ endMin then
    (endMin - startMin - durationMinutes) / 30 + 1
  else 0

/-! ## End-time derivation (bookings.service.ts `calculateEndTime`) -/

/-- JS `padStart(2, '0')`. -/
def pad2 (s : String) : String :=
  String.mk (List.replicate (2 - s.length) '0') ++ s

/-- `calculateEndTime` from bookings.service.ts lines 508-515.  The source
splits the "HH:mm" string into the hour and minute components modelled
here as the two Nat arguments, then renders `totalMinutes / 60` hours and
`totalMinutes % 60` minutes with two-digit padding and no modulo-24 wrap. -/
def calculateEndTime (startHour startMinute durationMinutes : Nat) : String :=
  let totalMinutes := startHour * 60 + startMinute + durationMinutes
  let endHours := totalMinutes / 60
  let endMinutes := totalMinutes % 60
  pad2 (Nat.repr endHours) ++ ":" ++ pad2 (Nat.repr endMinutes)

/-- A string is a well-formed "HH:mm" time of day when it renders some
hour below 24 and minute below 60. -/
def isValidHHmm (s : String) : Prop :=
  ∃ h : Fin 24, ∃ m : Fin 60,
    s = pad2 (Nat.repr (h : Nat)) ++ ":" ++ pad2 (Nat.repr (m : Nat))

instance (s : String) : Decidable (isValidHHmm s) := by
  unfold isValidHHmm; infer_instance

/-! ## Booking Lifecycle State Machine (bookings.service.ts) -/

/-- The transition table of `validateStatusTransition`
(bookings.service.ts lines 558-591). -/
def validTransitions : BookingStatus → List BookingStatus
  | .PENDING => [.CONFIRMED, .CANCELLED]
  | .CONFIRMED => [.CHECKED_IN, .CANCELLED, .NO_SHOW]
  | .CHECKED_IN => [.IN_PROGRESS, .CANCELLED]
  | .IN_PROGRESS => [.COMPLETED]
  | .COMPLETED => []
  | .CANCELLED => []
  | .NO_SHOW => []
  | .QUEUED => [.CONFIRMED, .CANCELLED]

/-- `findOne` / `prisma.booking.findUnique` by id. -/
def findOne (db : DB) (id : Nat) : Option Booking :=
  db.bookings.find? (fun b => b.id == id)

/-- The statuses that occupy slot capacity, as listed in the Prisma
`status: { in: [...] }` filter of `checkSlotAvailability`. -/
def occupyingStatuses : List BookingStatus :=
  [.PENDING, .CONFIRMED, .CHECKED_IN, .IN_PROGRESS]

/-- `checkSlotAvailability` (bookings.service.ts lines 479-503, identical
in queue.service.ts lines 443-466): count bookings matching the doctor,
date and exact startTime whose status occupies capacity; available iff
that count is strictly below `maxSlotsPerHour`. -/
def checkSlotAvailability (db : DB) (doctorId bookingDate startTime : Nat)
    (maxSlotsPerHour : Nat) : Bool :=
  decide ((db.bookings.filter (fun b =>
    b.doctorId == doctorId && b.bookingDate == bookingDate &&
    b.startTime == startTime && occupyingStatuses.contains b.status)).length
      < maxSlotsPerHour)

/-- `handleBookingCompletion` (bookings.service.ts lines 593-603): the
source is a placeholder that only writes a console log ("This will be
enhanced when we implement queue module") with a TODO to call
`queueService.autoPromote`; it performs no store mutation, so it is the
identity on the store. -/
def handleBookingCompletion (db : DB) : DB :=
  db

/-- `updateStatus` (bookings.service.ts lines 267-318): look the booking
up, validate the transition against the table (throwing
`invalidTransition` with both states before any write), then update the
status, append one history row, and on CANCELLED/COMPLETED invoke the
`handleBookingCompletion` placeholder.  Doctor notes are not modelled. -/
def updateStatus (db : DB) (id : Nat) (newStatus : BookingStatus)
    (changedById : Nat) (reason : String) : Except BookingError DB :=
  match findOne db id with
  | none => .error (.notFound "Booking")
  | some booking =>
    if (validTransitions booking.status).contains newStatus then
      let db1 : DB :=
        { db with
          bookings := db.bookings.map (fun b =>
            if b.id == id then { b with status := newStatus } else b)
          history := db.history ++
            [⟨id, some booking.status, newStatus, changedById, reason⟩] }
      if newStatus == .CANCELLED || newStatus == .COMPLETED then
        .ok (handleBookingCompletion db1)
      else
        .ok db1
    else
      .error (.invalidTransition booking.status newStatus)

/-! ## Booking creation (bookings.service.ts `create` / `validateBooking`) -/

/-- `validateBooking` (bookings.service.ts lines 348-474), checks in
source order: date not in the past, patient exists with role PATIENT,
doctor exists with role DOCTOR and active, service exists and active,
working hours exist for the weekday and contain the start instant,
no break interval contains the start instant (`lte`/`gt` on the raw
startTime), no off-day, and no duplicate booking by the same patient
with the same doctor on the same date whose status is outside
`[CANCELLED, NO_SHOW]`.  Returns the first error hit, `none` if valid. -/
def validateBooking (db : DB) (today patientId doctorId serviceId
    bookingDate startTime : Nat) : Option BookingError :=
  if bookingDate < today then some .invalidDate else
  match db.users.find? (fun u => u.id == patientId) with
  | none => some (.notFound "Patient")
  | some patient =>
  if patient.role != .PATIENT then some .notAPatient else
  match db.users.find? (fun u => u.id == doctorId) with
  | none => some (.notFound "Doctor")
  | some doctor =>
  if doctor.role != .DOCTOR then some .notADoctor else
  if !doctor.isActive then some .doctorInactive else
  match db.services.find? (fun s => s.id == serviceId) with
  | none => some (.notFound "Service")
  | some service =>
  if !service.isActive then some (.notFound "Service") else
  match db.workingHours.find? (fun wh =>
      wh.doctorId == doctorId && wh.dayOfWeek == bookingDate % 7) with
  | none => some .noWorkingHours
  | some wh =>
  if startTime < wh.startTime || wh.endTime ≤ startTime then
    some (.outsideWorkingHours wh.startTime wh.endTime) else
  match db.breakTimes.find? (fun bt =>
      bt.doctorId == doctorId && bt.date == bookingDate &&
      decide (bt.startTime ≤ startTime) && decide (startTime < bt.endTime)) with
  | some bt => some (.breakConflict bt.startTime bt.endTime)
  | none =>
  match db.offDays.find? (fun od =>
      od.doctorId == doctorId && od.date == bookingDate) with
  | some _ => some .offDayConflict
  | none =>
  match db.bookings.find? (fun b =>
      b.patientId == patientId && b.doctorId == doctorId &&
      b.bookingDate == bookingDate &&
      !([BookingStatus.CANCELLED, BookingStatus.NO_SHOW].contains b.status)) with
  | some _ => some .duplicateBooking
  | none => none

/-- `calculateQueuePosition` (bookings.service.ts lines 520-537): one
more than the number of queue rows whose booking matches the
(doctorId, date, startTime) group; the Prisma filter carries no status
condition. -/
def calculateQueuePosition (db : DB) (doctorId bookingDate startTime : Nat) :
    Nat :=
  (db.queue.filter (fun e =>
    match findOne db e.bookingId with
    | some b =>
        b.doctorId == doctorId && b.bookingDate == bookingDate &&
        b.startTime == startTime
    | none => false)).length + 1

/-- `create` (bookings.service.ts lines 20-138): validate, compute the
derived end time, check availability, pick PENDING or QUEUED as the
initial status, then in one transaction insert the booking, the initial
history row, and — when queued — the queue entry at position
(group count + 1) with estimated wait position × durationMinutes.
`newId` stands for the store-generated row id. -/
def createBooking (db : DB) (today newId patientId doctorId serviceId
    bookingDate startTime createdById : Nat) : Except BookingError DB :=
  match validateBooking db today patientId doctorId serviceId bookingDate
      startTime with
  | some e => .error e
  | none =>
  match db.services.find? (fun s => s.id == serviceId) with
  | none => .error (.notFound "Service")
  | some service =>
    let endTime := startTime + service.durationMinutes
    let isSlotAvailable := checkSlotAvailability db doctorId bookingDate
      startTime service.maxSlotsPerHour
    let initialStatus : BookingStatus :=
      if isSlotAvailable then .PENDING else .QUEUED
    let newBooking : Booking :=
      ⟨newId, patientId, doctorId, serviceId, bookingDate, startTime,
        endTime, initialStatus⟩
    let db1 : DB :=
      { db with
        bookings := db.bookings ++ [newBooking]
        history := db.history ++
          [⟨newId, none, initialStatus, createdById, "Booking created"⟩] }
    if initialStatus == .QUEUED then
      let queuePosition := calculateQueuePosition db1 doctorId bookingDate
        startTime
      .ok { db1 with
        queue := db1.queue ++
          [⟨newId, queuePosition,
            (queuePosition * service.durationMinutes : Nat)⟩] }
    else
      .ok db1

/-! ## Queue Manager (queue.service.ts) -/

/-- The booking a queue entry hangs off (Prisma relation by bookingId). -/
def entryBooking (db : DB) (e : QueueEntry) : Option Booking :=
  findOne db e.bookingId

/-- Whether a queue entry belongs to the (doctorId, date, startTime)
group, resolved through its booking as in the Prisma `booking:` filters. -/
def inGroup (db : DB) (e : QueueEntry) (doctorId bookingDate startTime : Nat) :
    Bool :=
  match entryBooking db e with
  | some b =>
      b.doctorId == doctorId && b.bookingDate == bookingDate &&
      b.startTime == startTime
  | none => false

/-- Whether a queue entry's booking currently has status QUEUED (the
`status: BookingStatus.QUEUED` condition of the queue-side filters). -/
def isQueuedEntry (db : DB) (e : QueueEntry) : Bool :=
  match entryBooking db e with
  | some b => b.status == .QUEUED
  | none => false

/-- `shiftQueuePositions` (queue.service.ts lines 406-438): every queue
entry of the group whose booking is QUEUED and whose position exceeds the
removed position gets its position decremented by 1 and its estimated
wait decremented by a flat 30 minutes. -/
def shiftQueuePositions (db : DB) (doctorId bookingDate startTime
    removedPosition : Nat) : DB :=
  { db with
    queue := db.queue.map (fun e =>
      if inGroup db e doctorId bookingDate startTime && isQueuedEntry db e &&
          decide (removedPosition < e.queuePosition) then
        { e with
          queuePosition := e.queuePosition - 1
          estimatedWaitMinutes := e.estimatedWaitMinutes - 30 }
      else e) }

/-- `removeFromQueue` (queue.service.ts lines 293-320): look the queue
entry up by bookingId (silently returning when absent), delete it, then
shift the remainder of its group.  The booking relation is mandatory in
the schema; a dangling entry skips the shift. -/
def removeFromQueue (db : DB) (bookingId : Nat) : DB :=
  match db.queue.find? (fun e => e.bookingId == bookingId) with
  | none => db
  | some queueRecord =>
    match findOne db bookingId with
    | none => { db with
        queue := db.queue.filter (fun e => e.bookingId != bookingId) }
    | some b =>
      let db1 : DB :=
        { db with
          queue := db.queue.filter (fun e => e.bookingId != bookingId) }
      shiftQueuePositions db1 b.doctorId b.bookingDate b.startTime
        queueRecord.queuePosition

/-- `promoteBooking` (queue.service.ts lines 329-401): in one transaction
set the booking's status to CONFIRMED, append the QUEUED→CONFIRMED
history row, delete the queue entry, and shift the remainder of its
group from the deleted entry's former position. -/
def promoteBooking (db : DB) (bookingId promotedBy : Nat) (reason : String) :
    Except BookingError DB :=
  match db.queue.find? (fun e => e.bookingId == bookingId) with
  | none => .error (.notFound "Queue record")
  | some queueRecord =>
    match findOne db bookingId with
    | none => .error (.notFound "Booking")
    | some b =>
      let db1 : DB :=
        { db with
          bookings := db.bookings.map (fun x =>
            if x.id == bookingId then { x with status := .CONFIRMED } else x)
          history := db.history ++
            [⟨bookingId, some .QUEUED, .CONFIRMED, promotedBy, reason⟩]
          queue := db.queue.filter (fun e => e.bookingId != bookingId) }
      .ok (shiftQueuePositions db1 b.doctorId b.bookingDate b.startTime
        queueRecord.queuePosition)

/-- The `findFirst ... orderBy queuePosition asc` of `autoPromote`:
the group's QUEUED entry with the least position (first in store order
among ties). -/
def headOfQueue (db : DB) (doctorId bookingDate startTime : Nat) :
    Option QueueEntry :=
  (db.queue.filter (fun e =>
      inGroup db e doctorId bookingDate startTime && isQueuedEntry db e)).foldl
    (fun acc e =>
      match acc with
      | none => some e
      | some a => if e.queuePosition < a.queuePosition then some e else some a)
    none

/-- `autoPromote` (queue.service.ts lines 229-288): find the head of the
group's queue; if none, report false; re-check availability with the
booking's service capacity; if still full, report false; otherwise
promote that booking as "system" and report true. -/
def autoPromote (db : DB) (doctorId bookingDate startTime : Nat) :
    Except BookingError (Bool × DB) :=
  match headOfQueue db doctorId bookingDate startTime with
  | none => .ok (false, db)
  | some firstInQueue =>
    match findOne db firstInQueue.bookingId with
    | none => .error (.notFound "Booking")
    | some b =>
      match db.services.find? (fun s => s.id == b.serviceId) with
      | none => .error (.notFound "Service")
      | some service =>
        if checkSlotAvailability db doctorId bookingDate startTime
            service.maxSlotsPerHour then
          match promoteBooking db firstInQueue.bookingId 0
              "Auto-promoted from queue" with
          | .error e => .error e
          | .ok db2 => .ok (true, db2)
        else
          .ok (false, db)

/-! ## Spec-side helpers and concrete instances used by the proofs -/

/-- The transition table of spec §4.3, written out as the set of allowed
(current, target) pairs. -/
def specTransitionTable : List (BookingStatus × BookingStatus) :=
  [(.PENDING, .CONFIRMED), (.PENDING, .CANCELLED),
   (.CONFIRMED, .CHECKED_IN), (.CONFIRMED, .CANCELLED), (.CONFIRMED, .NO_SHOW),
   (.CHECKED_IN, .IN_PROGRESS), (.CHECKED_IN, .CANCELLED),
   (.IN_PROGRESS, .COMPLETED),
   (.QUEUED, .CONFIRMED), (.QUEUED, .CANCELLED)]

/-- The queue entries of one (doctorId, date, startTime) group whose
booking currently has status QUEUED — the "live" entries of the group. -/
def liveGroupEntries (db : DB) (doctorId bookingDate startTime : Nat) :
    List QueueEntry :=
  db.queue.filter (fun e =>
    inGroup db e doctorId bookingDate startTime && isQueuedEntry db e)

/-- The per-entry effect of `shiftQueuePositions` on a live entry of the
affected group: position minus one and a flat 30 minutes off the
estimated wait whenever the position exceeds the removed one. -/
def shiftedEntry (removedPosition : Nat) (e : QueueEntry) : QueueEntry :=
  if removedPosition < e.queuePosition then
    { e with
      queuePosition := e.queuePosition - 1
      estimatedWaitMinutes := e.estimatedWaitMinutes - 30 }
  else e

/-- A store with a CONFIRMED occupant (booking 1) and a QUEUED booking 2
at queue position 1 for the same (doctor 5, date 10, slot 540) group,
with service capacity 1: cancelling booking 1 frees the slot for
booking 2. -/
def dbC1 : DB :=
  { users := []
    services := [⟨3, 30, 1, true⟩]
    workingHours := []
    breakTimes := []
    offDays := []
    bookings :=
      [⟨1, 7, 5, 3, 10, 540, 570, .CONFIRMED⟩,
       ⟨2, 8, 5, 3, 10, 540, 570, .QUEUED⟩]
    queue := [⟨2, 1, 30⟩]
    history := [] }

/-- An initial store with two patients, an active doctor working
09:00-12:00 on the weekday of date 10, and a service with capacity 1. -/
def dbInit : DB :=
  { users := [⟨1, .PATIENT, true⟩, ⟨4, .PATIENT, true⟩, ⟨2, .DOCTOR, true⟩]
    services := [⟨3, 30, 1, true⟩]
    workingHours := [⟨2, 3, 540, 720⟩]
    breakTimes := []
    offDays := []
    bookings := []
    queue := []
    history := [] }

/-- Create a PENDING booking filling the capacity-1 slot, create a second
booking for another patient (which is placed in the queue), then cancel
the queued booking through `updateStatus`. -/
def c2Chain : Except BookingError DB :=
  createBooking dbInit 0 100 1 2 3 10 540 9 >>= fun d1 =>
  createBooking d1 0 101 4 2 3 10 540 9 >>= fun d2 =>
  updateStatus d2 101 .CANCELLED 9 "cancelled by user"

/-- A store where patient 1 already holds a COMPLETED booking with
doctor 2 on date 10. -/
def dbDup : DB :=
  { users := [⟨1, .PATIENT, true⟩, ⟨2, .DOCTOR, true⟩]
    services := [⟨3, 30, 2, true⟩]
    workingHours := [⟨2, 3, 540, 720⟩]
    breakTimes := []
    offDays := []
    bookings := [⟨50, 1, 2, 3, 10, 540, 570, .COMPLETED⟩]
    queue := []
    history := [] }

/-- A store with a doctor working 09:00-12:00, a 60-minute service, no
breaks, no off-days and no bookings. -/
def db3 : DB :=
  { users := [⟨1, .PATIENT, true⟩, ⟨2, .DOCTOR, true⟩]
    services := [⟨3, 60, 2, true⟩]
    workingHours := [⟨2, 3, 540, 720⟩]
    breakTimes := []
    offDays := []
    bookings := []
    queue := []
    history := [] }

/-- A store with one PENDING occupant of the (doctor 1, date 0, slot 540)
group. -/
def dbAvail : DB :=
  { users := []
    services := []
    workingHours := []
    breakTimes := []
    offDays := []
    bookings := [⟨1, 7, 1, 3, 0, 540, 570, .PENDING⟩]
    queue := []
    history := [] }

/-- A QUEUED booking for the same group as `dbAvail`. -/
def bQueuedW : Booking := ⟨2, 8, 1, 3, 0, 540, 570, .QUEUED⟩

/-- A store holding one COMPLETED (terminal) booking. -/
def db5 : DB :=
  { users := []
    services := []
    workingHours := []
    breakTimes := []
    offDays := []
    bookings := [⟨1, 7, 5, 3, 10, 540, 570, .COMPLETED⟩]
    queue := []
    history := [] }

/-- A store with three QUEUED bookings of the (doctor 5, date 10,
slot 540) group at queue positions 1, 2, 3. -/
def dbQ9 : DB :=
  { users := []
    services := [⟨3, 30, 1, true⟩]
    workingHours := []
    breakTimes := []
    offDays := []
    bookings :=
      [⟨11, 21, 5, 3, 10, 540, 570, .QUEUED⟩,
       ⟨12, 22, 5, 3, 10, 540, 570, .QUEUED⟩,
       ⟨13, 23, 5, 3, 10, 540, 570, .QUEUED⟩]
    queue := [⟨11, 1, 30⟩, ⟨12, 2, 60⟩, ⟨13, 3, 90⟩]
    history := [] }

/-- The booking behind the middle entry of `dbQ9`. -/
def bQ12 : Booking := ⟨12, 22, 5, 3, 10, 540, 570, .QUEUED⟩
/-! ## Helper lemmas -/

/-- One loop iteration shrinks the slot count by one. -/
theorem slotCount_step (cur e d : Nat) (hc : cur + d ≤ e) :
    slotCount cur e d = slotCount (cur + 30) e d + 1 := by
  unfold slotCount
  by_cases h30 : cur + 30 + d ≤ e
  · rw [if_pos hc, if_pos h30]; omega
  · rw [if_pos hc, if_neg h30]; omega

/-- Characterization of the slot loop for sufficient fuel: the produced
slots are exactly `cur + 30 * i` for `i` below the slot count. -/
theorem slotLoop_eq (fuel cur e d : Nat) (h : e + 1 ≤ fuel + cur) :
    slotLoop fuel cur e d
      = (List.range (slotCount cur e d)).map (fun i => cur + 30 * i) := by
  induction fuel generalizing cur with
  | zero =>
    have hc : ¬ (cur + d ≤ e) := by omega
    simp [slotLoop, slotCount, hc]
  | succ n ih =>
    by_cases hc : cur + d ≤ e
    · rw [slotLoop, if_pos hc, ih (cur + 30) (by omega),
        slotCount_step cur e d hc, List.range_succ_eq_map]
      simp only [List.map_cons, List.map_map]
      refine congrArg₂ _ (by omega) ?_
      refine List.map_congr_left ?_
      intro i _
      simp [Function.comp, Nat.succ_eq_add_one]
      omega
    · rw [slotLoop, if_neg hc]
      simp [slotCount, hc]

/-- `generateTimeSlots` produces the arithmetic 30-minute grid. -/
theorem generateTimeSlots_eq (s e d : Nat) :
    generateTimeSlots s e d
      = (List.range (slotCount s e d)).map (fun i => s + 30 * i) :=
  slotLoop_eq (e + 1) s e d (by omega)

/-- The occupying-status list membership, spelled out. -/
theorem contains_occupying (s : BookingStatus) :
    occupyingStatuses.contains s
      = (s == .PENDING || s == .CONFIRMED || s == .CHECKED_IN ||
         s == .IN_PROGRESS) := by
  cases s <;> rfl

/-- Updating the status of the booking with a given id commutes with
looking that id up. -/
theorem find?_map_setStatus (l : List Booking) (id : Nat) (st : BookingStatus) :
    (l.map (fun b => if b.id == id then { b with status := st } else b)).find?
        (fun b => b.id == id)
      = (l.find? (fun b => b.id == id)).map
          (fun b => { b with status := st }) := by
  induction l with
  | nil => rfl
  | cons x xs ih =>
    by_cases hx : (x.id == id) = true
    · simp only [List.map_cons, List.find?_cons, hx, if_pos hx]
      simp [hx]
    · simp only [List.map_cons, List.find?_cons, if_neg hx]
      rw [Bool.not_eq_true] at hx
      simp only [hx]
      exact ih

/-- The Prisma notIn filter of the duplicate check, spelled out. -/
theorem contains_terminal2 (s : BookingStatus) :
    ([BookingStatus.CANCELLED, BookingStatus.NO_SHOW].contains s)
      = (s == .CANCELLED || s == .NO_SHOW) := by
  cases s <;> rfl

/-- Propositional reading of the duplicate-booking predicate. -/
theorem dupPred_iff (b : Booking) (pid did date : Nat) :
    (b.patientId == pid && b.doctorId == did && b.bookingDate == date &&
      !([BookingStatus.CANCELLED, BookingStatus.NO_SHOW].contains b.status))
      = true
    ↔ (b.patientId = pid ∧ b.doctorId = did ∧ b.bookingDate = date ∧
       b.status ≠ .CANCELLED ∧ b.status ≠ .NO_SHOW) := by
  simp [contains_terminal2, Bool.and_eq_true, beq_iff_eq, Bool.not_eq_true',
    Bool.or_eq_false_iff, and_assoc]

/-- Propositional reading of the break-containment predicate. -/
theorem breakPred_iff (bt : BreakTime) (did date t : Nat) :
    (bt.doctorId == did && bt.date == date &&
      decide (bt.startTime ≤ t) && decide (t < bt.endTime)) = true
    ↔ (bt.doctorId = did ∧ bt.date = date ∧ bt.startTime ≤ t ∧
       t < bt.endTime) := by
  simp [Bool.and_eq_true, beq_iff_eq, decide_eq_true_eq, and_assoc]

/-- Propositional reading of the off-day predicate. -/
theorem offPred_iff (od : OffDay) (did date : Nat) :
    (od.doctorId == did && od.date == date) = true
    ↔ (od.doctorId = did ∧ od.date = date) := by
  simp [Bool.and_eq_true, beq_iff_eq]

/-- Shifting never changes which booking an entry belongs to. -/
theorem shiftedEntry_bookingId (p : Nat) (e : QueueEntry) :
    (shiftedEntry p e).bookingId = e.bookingId := by
  unfold shiftedEntry
  split <;> rfl

/-- Group membership ignores the queue table. -/
theorem inGroup_set_queue (db : DB) (q : List QueueEntry) :
    inGroup { db with queue := q } = inGroup db := rfl

/-- Liveness ignores the queue table. -/
theorem isQueuedEntry_set_queue (db : DB) (q : List QueueEntry) :
    isQueuedEntry { db with queue := q } = isQueuedEntry db := rfl

/-- Group membership only depends on the entry's bookingId. -/
theorem inGroup_congr_id (db : DB) (e1 e2 : QueueEntry)
    (h : e1.bookingId = e2.bookingId) (a b c : Nat) :
    inGroup db e1 a b c = inGroup db e2 a b c := by
  unfold inGroup entryBooking findOne
  rw [h]

/-- Liveness only depends on the entry's bookingId. -/
theorem isQueuedEntry_congr_id (db : DB) (e1 e2 : QueueEntry)
    (h : e1.bookingId = e2.bookingId) :
    isQueuedEntry db e1 = isQueuedEntry db e2 := by
  unfold isQueuedEntry entryBooking findOne
  rw [h]

/-- Updating one booking's status does not change lookups of other ids. -/
theorem find?_booking_setStatus_ne (l : List Booking) (bid id2 : Nat)
    (st : BookingStatus) (hne : id2 ≠ bid) :
    (l.map (fun x => if x.id == bid then { x with status := st } else x)).find?
        (fun b => b.id == id2)
      = l.find? (fun b => b.id == id2) := by
  induction l with
  | nil => rfl
  | cons x xs ih =>
    by_cases hx : (x.id == bid) = true
    · have hxid : x.id = bid := by simpa using hx
      have h1 : (({ x with status := st } : Booking).id == id2) = false := by
        show (x.id == id2) = false
        simp only [beq_eq_false_iff_ne, ne_eq, hxid]
        exact fun h => hne h.symm
      have h2 : (x.id == id2) = false := by
        simp only [beq_eq_false_iff_ne, ne_eq, hxid]
        exact fun h => hne h.symm
      simp only [List.map_cons, List.find?_cons, if_pos hx, h1, h2]
      exact ih
    · simp only [List.map_cons, List.find?_cons, if_neg hx]
      cases hxp : (x.id == id2) with
      | true => simp only [hxp]
      | false =>
        simp only [hxp]
        exact ih

/-- List-level core of the delete-then-shift step shared by promotion and
removal: filtering the deleted entry out, applying the shift map, and
keeping the live entries is the same as shifting the surviving live
entries pointwise. -/
theorem shift_filter_core (l : List QueueEntry) (gMid gDb : QueueEntry → Bool)
    (bid p : Nat)
    (hpred : ∀ e, e.bookingId ≠ bid → gMid e = gDb e)
    (hdep : ∀ e1 e2 : QueueEntry, e1.bookingId = e2.bookingId →
      gMid e1 = gMid e2) :
    ((l.filter (fun e => e.bookingId != bid)).map (fun e =>
        if gMid e && decide (p < e.queuePosition) then
          { e with
            queuePosition := e.queuePosition - 1
            estimatedWaitMinutes := e.estimatedWaitMinutes - 30 }
        else e)).filter gMid
      = ((l.filter gDb).filter (fun e => e.bookingId != bid)).map
          (shiftedEntry p) := by
  induction l with
  | nil => rfl
  | cons x xs ih =>
    by_cases hxb : (x.bookingId != bid) = true
    · have hxbne : x.bookingId ≠ bid := bne_iff_ne.mp hxb
      have hgx : gMid x = gDb x := hpred x hxbne
      cases hgd : gDb x with
      | true =>
        have hgm : gMid x = true := by rw [hgx, hgd]
        have hFx : (if gMid x && decide (p < x.queuePosition) then
            ({ x with
              queuePosition := x.queuePosition - 1
              estimatedWaitMinutes := x.estimatedWaitMinutes - 30 } :
                QueueEntry)
          else x) = shiftedEntry p x := by
          rw [hgm, Bool.true_and]
          unfold shiftedEntry
          by_cases hpp : p < x.queuePosition
          · rw [if_pos (by simpa using hpp), if_pos hpp]
          · rw [if_neg (by simpa using hpp), if_neg hpp]
        have hgFx : gMid (shiftedEntry p x) = true := by
          rw [hdep (shiftedEntry p x) x (shiftedEntry_bookingId p x)]
          exact hgm
        simp only [List.filter_cons, hxb, if_true, List.map_cons, hFx]
        rw [if_pos hgFx, if_pos hgd, List.filter_cons, if_pos hxb,
          List.map_cons, ih]
      | false =>
        have hgm : gMid x = false := by rw [hgx, hgd]
        have hFx : (if gMid x && decide (p < x.queuePosition) then
            ({ x with
              queuePosition := x.queuePosition - 1
              estimatedWaitMinutes := x.estimatedWaitMinutes - 30 } :
                QueueEntry)
          else x) = x := by
          rw [hgm, Bool.false_and, if_neg (by simp)]
        simp only [List.filter_cons, hxb, if_true, List.map_cons, hFx]
        rw [if_neg (by rw [hgm]; exact Bool.false_ne_true),
          if_neg (by rw [hgd]; exact Bool.false_ne_true)]
        exact ih
    · have hxb2 : (x.bookingId != bid) = false := by
        revert hxb
        cases x.bookingId != bid <;> simp
      simp only [List.filter_cons, hxb2, Bool.false_eq_true, if_false]
      cases hgd : gDb x with
      | true =>
        rw [if_pos rfl, List.filter_cons,
          if_neg (by rw [hxb2]; exact Bool.false_ne_true)]
        exact ih
      | false =>
        rw [if_neg (show ¬ (false = true) from Bool.false_ne_true)]
        exact ih

/-- Delete-then-shift on the store level: when the mid-transaction store
agrees with the original on the surviving entries, the live entries of
the group after shifting are the shifted survivors. -/
theorem liveGroup_delete_shift (db dbMid : DB) (dg dd dt bid p : Nat)
    (hq : dbMid.queue = db.queue.filter (fun e => e.bookingId != bid))
    (hgrp : ∀ e : QueueEntry, e.bookingId ≠ bid →
      (inGroup dbMid e dg dd dt && isQueuedEntry dbMid e)
        = (inGroup db e dg dd dt && isQueuedEntry db e)) :
    liveGroupEntries (shiftQueuePositions dbMid dg dd dt p) dg dd dt
      = ((liveGroupEntries db dg dd dt).filter
          (fun e => e.bookingId != bid)).map (shiftedEntry p) := by
  unfold liveGroupEntries shiftQueuePositions
  simp only [inGroup_set_queue, isQueuedEntry_set_queue]
  rw [hq]
  exact shift_filter_core db.queue
    (fun e => inGroup dbMid e dg dd dt && isQueuedEntry dbMid e)
    (fun e => inGroup db e dg dd dt && isQueuedEntry db e) bid p hgrp
    (fun e1 e2 h12 => by
      show (inGroup dbMid e1 dg dd dt && isQueuedEntry dbMid e1)
        = (inGroup dbMid e2 dg dd dt && isQueuedEntry dbMid e2)
      rw [inGroup_congr_id dbMid e1 e2 h12 dg dd dt,
        isQueuedEntry_congr_id dbMid e1 e2 h12])

/-- The live entries of the affected group after `removeFromQueue`. -/
theorem removeFromQueue_live (db : DB) (bid : Nat) (e0 : QueueEntry)
    (b0 : Booking)
    (hfind : db.queue.find? (fun e => e.bookingId == bid) = some e0)
    (hb : findOne db bid = some b0) :
    liveGroupEntries (removeFromQueue db bid) b0.doctorId b0.bookingDate
        b0.startTime
      = ((liveGroupEntries db b0.doctorId b0.bookingDate b0.startTime).filter
          (fun e => e.bookingId != bid)).map (shiftedEntry e0.queuePosition) := by
  simp only [removeFromQueue, hfind, hb]
  exact liveGroup_delete_shift db _ b0.doctorId b0.bookingDate b0.startTime bid
    e0.queuePosition rfl (fun e _ => rfl)

/-- The live entries of the affected group after `promoteBooking`. -/
theorem promoteBooking_live (db : DB) (bid actor : Nat) (reason : String)
    (e0 : QueueEntry) (b0 : Booking)
    (hfind : db.queue.find? (fun e => e.bookingId == bid) = some e0)
    (hb : findOne db bid = some b0) :
    ∃ db2, promoteBooking db bid actor reason = .ok db2 ∧
      liveGroupEntries db2 b0.doctorId b0.bookingDate b0.startTime
        = ((liveGroupEntries db b0.doctorId b0.bookingDate
            b0.startTime).filter (fun e => e.bookingId != bid)).map
            (shiftedEntry e0.queuePosition) := by
  simp only [promoteBooking, hfind, hb]
  refine ⟨_, rfl, ?_⟩
  apply liveGroup_delete_shift
  · rfl
  · intro e hne
    have h1 : inGroup
        { db with
          bookings := db.bookings.map (fun x =>
            if x.id == bid then { x with status := .CONFIRMED } else x)
          history := db.history ++
            [⟨bid, some .QUEUED, .CONFIRMED, actor, reason⟩]
          queue := db.queue.filter (fun e => e.bookingId != bid) }
        e b0.doctorId b0.bookingDate b0.startTime
        = inGroup db e b0.doctorId b0.bookingDate b0.startTime := by
      unfold inGroup entryBooking findOne
      simp only []
      rw [find?_booking_setStatus_ne db.bookings bid e.bookingId .CONFIRMED hne]
    have h2 : isQueuedEntry
        { db with
          bookings := db.bookings.map (fun x =>
            if x.id == bid then { x with status := .CONFIRMED } else x)
          history := db.history ++
            [⟨bid, some .QUEUED, .CONFIRMED, actor, reason⟩]
          queue := db.queue.filter (fun e => e.bookingId != bid) }
        e = isQueuedEntry db e := by
      unfold isQueuedEntry entryBooking findOne
      simp only []
      rw [find?_booking_setStatus_ne db.bookings bid e.bookingId .CONFIRMED hne]
    rw [h1, h2]

/-- A list with pairwise-distinct bookingIds is, up to permutation, any of
its members in front of the rest. -/
theorem perm_cons_filter_ne (l : List QueueEntry) (e0 : QueueEntry)
    (h : e0 ∈ l) (hnd : (l.map QueueEntry.bookingId).Nodup) :
    l.Perm (e0 :: l.filter (fun e => e.bookingId != e0.bookingId)) := by
  induction l with
  | nil => cases h
  | cons x xs ih =>
    rw [List.map_cons, List.nodup_cons] at hnd
    obtain ⟨hx_nin, hnd_xs⟩ := hnd
    rcases List.mem_cons.mp h with rfl | hmem
    · have hxs : xs.filter (fun e => e.bookingId != e0.bookingId) = xs := by
        apply List.filter_eq_self.mpr
        intro a ha
        have : a.bookingId ≠ e0.bookingId := by
          intro hcon
          exact hx_nin (hcon ▸ List.mem_map_of_mem QueueEntry.bookingId ha)
        simpa [bne_iff_ne] using this
      rw [List.filter_cons, if_neg (by simp), hxs]
    · have hxne : x.bookingId ≠ e0.bookingId := by
        intro hcon
        exact hx_nin (hcon ▸ List.mem_map_of_mem QueueEntry.bookingId hmem)
      rw [List.filter_cons, if_pos (by simpa [bne_iff_ne] using hxne)]
      exact ((ih hmem hnd_xs).cons x).trans (List.Perm.swap e0 x _)

/-- Removing a value from the contiguous range 1..N and closing the gap
by decrementing everything above it yields the range 1..N-1. -/
theorem erase_shift_range (N p : Nat) (h1 : 1 ≤ p) (h2 : p ≤ N) :
    (((List.range' 1 N).erase p).map
        (fun q => if p < q then q - 1 else q)).Perm
      (List.range' 1 (N - 1)) := by
  induction N with
  | zero => omega
  | succ n ih =>
    rcases Nat.lt_or_ge p (n + 1) with hp | hp
    · have hpn : p ≤ n := by omega
      have hmem : p ∈ List.range' 1 n := by
        rw [List.mem_range'_1]
        omega
      rw [show List.range' 1 (n + 1) = List.range' 1 n ++ [1 + n] by
          rw [List.range'_concat]; simp,
        List.erase_append_left _ hmem, List.map_append]
      have hlast : (fun q => if p < q then q - 1 else q) (1 + n) = n := by
        simp only
        rw [if_pos (by omega)]
        omega
      simp only [List.map_cons, List.map_nil, hlast]
      have hstep := (ih hpn).append_right [n]
      refine hstep.trans ?_
      rw [show n + 1 - 1 = (n - 1) + 1 by omega,
        show List.range' 1 ((n - 1) + 1)
            = List.range' 1 (n - 1) ++ [1 + (n - 1)] by
          rw [List.range'_concat]; simp,
        show 1 + (n - 1) = n by omega]
    · have hnmem : p ∉ List.range' 1 n := by
        rw [List.mem_range'_1]
        omega
      rw [show List.range' 1 (n + 1) = List.range' 1 n ++ [1 + n] by
          rw [List.range'_concat]; simp,
        List.erase_append_right _ hnmem,
        show ([1 + n].erase p) = [] by
          rw [show (1 + n) = p by omega]
          simp,
        List.append_nil]
      have hid : (List.range' 1 n).map (fun q => if p < q then q - 1 else q)
          = List.range' 1 n := by
        have hpt : ∀ q ∈ List.range' 1 n,
            (fun q => if p < q then q - 1 else q) q = q := by
          intro q hq
          rw [List.mem_range'_1] at hq
          simp only
          rw [if_neg (by omega)]
        rw [List.map_congr_left hpt]
        exact List.map_id _
      rw [hid]
      simp

/-- The entry found for a QUEUED booking is itself a live entry of that
booking's group. -/
theorem e0_mem_live (db : DB) (bid : Nat) (e0 : QueueEntry) (b0 : Booking)
    (hfind : db.queue.find? (fun e => e.bookingId == bid) = some e0)
    (hb : findOne db bid = some b0)
    (hq : b0.status = .QUEUED) :
    e0 ∈ liveGroupEntries db b0.doctorId b0.bookingDate b0.startTime
    ∧ e0.bookingId = bid := by
  have hmem := List.mem_of_find?_eq_some hfind
  have hpred := List.find?_some hfind
  have hbid : e0.bookingId = bid := by simpa using hpred
  refine ⟨List.mem_filter.mpr ⟨hmem, ?_⟩, hbid⟩
  unfold inGroup isQueuedEntry entryBooking
  rw [hbid, hb]
  simp [hq]

/-- Positions of the live group entries after a delete-and-shift: from a
contiguous 1..N they become a contiguous 1..N-1. -/
theorem live_positions_perm (db2 db : DB) (dg dd dt bid N : Nat)
    (e0 : QueueEntry)
    (hA : liveGroupEntries db2 dg dd dt
      = ((liveGroupEntries db dg dd dt).filter
          (fun e => e.bookingId != bid)).map (shiftedEntry e0.queuePosition))
    (he0 : e0 ∈ liveGroupEntries db dg dd dt)
    (hbid : e0.bookingId = bid)
    (hnd : ((liveGroupEntries db dg dd dt).map QueueEntry.bookingId).Nodup)
    (hperm : ((liveGroupEntries db dg dd dt).map
        QueueEntry.queuePosition).Perm (List.range' 1 N)) :
    ((liveGroupEntries db2 dg dd dt).map QueueEntry.queuePosition).Perm
      (List.range' 1 (N - 1)) := by
  have hLperm := perm_cons_filter_ne (liveGroupEntries db dg dd dt) e0 he0 hnd
  simp only [hbid] at hLperm
  have hposperm := hLperm.map QueueEntry.queuePosition
  rw [List.map_cons] at hposperm
  have hchain := hposperm.symm.trans hperm
  have hrest : (((liveGroupEntries db dg dd dt).filter
      (fun e => e.bookingId != bid)).map QueueEntry.queuePosition).Perm
      ((List.range' 1 N).erase e0.queuePosition) := by
    have h3 := hchain.erase e0.queuePosition
    rw [List.erase_cons_head] at h3
    exact h3
  have hpmem : e0.queuePosition ∈ List.range' 1 N :=
    hchain.mem_iff.mp (List.mem_cons_self _ _)
  rw [List.mem_range'_1] at hpmem
  rw [hA, List.map_map]
  have hcomp : ((liveGroupEntries db dg dd dt).filter
        (fun e => e.bookingId != bid)).map
          (QueueEntry.queuePosition ∘ shiftedEntry e0.queuePosition)
      = (((liveGroupEntries db dg dd dt).filter
          (fun e => e.bookingId != bid)).map QueueEntry.queuePosition).map
            (fun q => if e0.queuePosition < q then q - 1 else q) := by
    rw [List.map_map]
    apply List.map_congr_left
    intro e _
    show (shiftedEntry e0.queuePosition e).queuePosition
      = if e0.queuePosition < e.queuePosition then e.queuePosition - 1
        else e.queuePosition
    unfold shiftedEntry
    split <;> rfl
  rw [hcomp]
  exact (hrest.map _).trans
    (erase_shift_range N e0.queuePosition hpmem.1 (by omega))

/-! ## Claim theorems -/

/-- C1: the spec requires a transition into CANCELLED or COMPLETED to
trigger the Queue Manager's `autoPromote` for the booking's group, but the
source's `handleBookingCompletion` is a placeholder that only logs:
cancelling the CONFIRMED occupant of a full capacity-1 slot leaves the
QUEUED booking 2 and its queue entry untouched, even though running
`autoPromote` on the freed group at that point would promote booking 2 to
CONFIRMED and empty the queue. -/
theorem promotion_not_triggered :
    (∀ d : DB, handleBookingCompletion d = d)
    ∧ ((updateStatus dbC1 1 .CANCELLED 9 "cancel").toOption.map (fun d =>
        ((findOne d 2).map Booking.status, d.queue)))
       = some (some .QUEUED, dbC1.queue)
    ∧ ((updateStatus dbC1 1 .CANCELLED 9 "cancel").toOption.bind (fun d =>
        (autoPromote d 5 10 540).toOption)).map (fun p =>
          (p.1, (findOne p.2 2).map Booking.status, p.2.queue))
       = some (true, some .CONFIRMED, [])
    ∧ dbC1.queue = [⟨2, 1, 30⟩] := by
  refine ⟨fun d => rfl, by decide, by decide, rfl⟩

/-- C2: the spec requires a QueueEntry to exist iff its booking's status
is QUEUED, but on the reachable state obtained by filling a capacity-1
slot, queueing a second booking, and cancelling the queued booking via
`updateStatus`, booking 101 ends with status CANCELLED while its queue
entry (position 1) still exists — `removeFromQueue` is never invoked by
the status-transition path. -/
theorem queue_iff_queued_violated :
    c2Chain.toOption.map (fun d =>
      ((findOne d 101).map Booking.status,
       d.queue.filter (fun e => e.bookingId == 101)))
    = some (some .CANCELLED, [⟨101, 1, 30⟩]) := by
  decide

/-- C3 (counterexample): with working hours 540-720, a 60-minute service
and no breaks, the requested start 690 is not on the 30-minute grid for
that window (690 + 60 exceeds 720), yet `validateBooking` accepts it and
`createBooking` proceeds — the claimed grid-point validation does not
happen. -/
theorem point_validation_counterexample :
    db3.workingHours = [⟨2, 3, 540, 720⟩]
    ∧ db3.services = [⟨3, 60, 2, true⟩]
    ∧ db3.breakTimes = []
    ∧ 690 ∉ generateTimeSlots 540 720 60
    ∧ validateBooking db3 0 1 2 3 10 690 = none
    ∧ (createBooking db3 0 99 1 2 3 10 690 9).toOption.isSome = true := by
  refine ⟨rfl, rfl, rfl, by decide, by decide, by rfl⟩

/-- C3 (amended): `validateBooking` checks the requested start instant
only pointwise — it accepts iff the start lies inside the working-hours
window, no break interval contains the start instant, the date is not an
off-day, and the patient holds no blocking booking; no 30-minute grid
alignment and no duration fit are enforced.  On acceptance,
`createBooking` stores the booking with status PENDING or QUEUED exactly
as the availability check decides. -/
theorem point_validation (db : DB) (today pid did sid date t : Nat)
    (patient doctor : UserRec) (service : Service) (wh : WorkingHours)
    (hdate : ¬ date < today)
    (hpf : db.users.find? (fun u => u.id == pid) = some patient)
    (hpr : patient.role = .PATIENT)
    (hdf : db.users.find? (fun u => u.id == did) = some doctor)
    (hdr : doctor.role = .DOCTOR)
    (hda : doctor.isActive = true)
    (hsf : db.services.find? (fun s => s.id == sid) = some service)
    (hsa : service.isActive = true)
    (hwf : db.workingHours.find? (fun wh2 =>
      wh2.doctorId == did && wh2.dayOfWeek == date % 7) = some wh) :
    (validateBooking db today pid did sid date t = none ↔
      ((wh.startTime ≤ t ∧ t < wh.endTime)
      ∧ (∀ bt ∈ db.breakTimes, bt.doctorId = did → bt.date = date →
          ¬ (bt.startTime ≤ t ∧ t < bt.endTime))
      ∧ (∀ od ∈ db.offDays, ¬ (od.doctorId = did ∧ od.date = date))
      ∧ (∀ b ∈ db.bookings, ¬ (b.patientId = pid ∧ b.doctorId = did ∧
          b.bookingDate = date ∧ b.status ≠ .CANCELLED ∧
          b.status ≠ .NO_SHOW))))
    ∧ (validateBooking db today pid did sid date t = none →
        ∀ newId actor, ∃ db2,
          createBooking db today newId pid did sid date t actor = .ok db2 ∧
          db2.bookings = db.bookings ++
            [⟨newId, pid, did, sid, date, t, t + service.durationMinutes,
              if checkSlotAvailability db did date t service.maxSlotsPerHour
              then .PENDING else .QUEUED⟩]) := by
  constructor
  · simp only [validateBooking, if_neg hdate, hpf, hdf, hsf, hwf,
      hpr, hdr, hda, hsa, bne_self_eq_false, Bool.not_true,
      Bool.false_eq_true, if_false]
    by_cases hw : wh.startTime ≤ t ∧ t < wh.endTime
    · rw [if_neg (show ¬ ((decide (t < wh.startTime) ||
          decide (wh.endTime ≤ t)) = true) by
        simp only [Bool.or_eq_true, decide_eq_true_eq]
        omega)]
      cases hbf : db.breakTimes.find? (fun bt =>
          bt.doctorId == did && bt.date == date &&
          decide (bt.startTime ≤ t) && decide (t < bt.endTime)) with
      | some bt =>
        simp only [hbf]
        constructor
        · intro h
          exact absurd h (by simp)
        · rintro ⟨-, hbrk, -, -⟩
          have hbp := List.find?_some hbf
          obtain ⟨h1, h2, h3, h4⟩ := (breakPred_iff bt did date t).mp hbp
          exact absurd ⟨h3, h4⟩ (hbrk bt (List.mem_of_find?_eq_some hbf) h1 h2)
      | none =>
        cases hof : db.offDays.find? (fun od =>
            od.doctorId == did && od.date == date) with
        | some od =>
          simp only [hbf, hof]
          constructor
          · intro h
            exact absurd h (by simp)
          · rintro ⟨-, -, hoff, -⟩
            have hop := List.find?_some hof
            exact absurd ((offPred_iff od did date).mp hop)
              (hoff od (List.mem_of_find?_eq_some hof))
        | none =>
          cases hdd : db.bookings.find? (fun b =>
              b.patientId == pid && b.doctorId == did &&
              b.bookingDate == date &&
              !([BookingStatus.CANCELLED, BookingStatus.NO_SHOW].contains
                b.status)) with
          | some x =>
            simp only [hbf, hof, hdd]
            constructor
            · intro h
              exact absurd h (by simp)
            · rintro ⟨-, -, -, hdup⟩
              have hdp := List.find?_some hdd
              obtain ⟨h1, h2, h3, h4, h5⟩ := (dupPred_iff x pid did date).mp hdp
              exact absurd ⟨h1, h2, h3, h4, h5⟩
                (hdup x (List.mem_of_find?_eq_some hdd))
          | none =>
            simp only [hbf, hof, hdd]
            constructor
            · intro _
              refine ⟨hw, ?_, ?_, ?_⟩
              · intro bt hbm hb1 hb2 hb34
                rw [List.find?_eq_none] at hbf
                exact hbf bt hbm
                  ((breakPred_iff bt did date t).mpr ⟨hb1, hb2, hb34⟩)
              · intro od hom hoff
                rw [List.find?_eq_none] at hof
                exact hof od hom ((offPred_iff od did date).mpr hoff)
              · intro b hbm hprops
                rw [List.find?_eq_none] at hdd
                exact hdd b hbm ((dupPred_iff b pid did date).mpr hprops)
            · intro _
              trivial
    · rw [if_pos (show ((decide (t < wh.startTime) ||
          decide (wh.endTime ≤ t)) = true) by
        simp only [Bool.or_eq_true, decide_eq_true_eq]
        omega)]
      constructor
      · intro h
        exact absurd h (by simp)
      · rintro ⟨hw2, -⟩
        exact absurd hw2 hw
  · intro hvalid newId actor
    simp only [createBooking, hvalid, hsf]
    cases hav : checkSlotAvailability db did date t service.maxSlotsPerHour with
    | true =>
      simp only [hav]
      simp only [eq_self_iff_true, if_true,
        show (BookingStatus.PENDING == BookingStatus.QUEUED) = false from rfl,
        Bool.false_eq_true, if_false]
      exact ⟨_, rfl, rfl⟩
    | false =>
      simp only [hav, Bool.false_eq_true, if_false]
      simp only [eq_self_iff_true, if_true,
        show (BookingStatus.QUEUED == BookingStatus.QUEUED) = true from rfl]
      exact ⟨_, rfl, rfl⟩

/-- C3 (witness): on the concrete store `db3` the accepted off-grid
request 690 is created as a PENDING booking ending at 750. -/
theorem point_validation_witness :
    ∃ db2, createBooking db3 0 99 1 2 3 10 690 9 = .ok db2 ∧
      db2.bookings = db3.bookings ++ [⟨99, 1, 2, 3, 10, 690, 750, .PENDING⟩] := by
  obtain ⟨db2, hok, hbk⟩ :=
    (point_validation db3 0 1 2 3 10 690 ⟨1, .PATIENT, true⟩ ⟨2, .DOCTOR, true⟩
      ⟨3, 60, 2, true⟩ ⟨2, 3, 540, 720⟩ (by decide) rfl rfl rfl rfl rfl rfl rfl
      rfl).2 (by decide) 99 9
  refine ⟨db2, hok, ?_⟩
  rw [hbk]
  rfl

/-- C4 (counterexample): the claim says only non-terminal bookings — with
COMPLETED excluded — block re-booking, but on `dbDup`, where every booking
of patient 1 is COMPLETED, a new request for the same doctor and date
(even at a different time) fails with Duplicate. -/
theorem duplicate_rule_counterexample :
    (∀ b ∈ dbDup.bookings, b.status = .COMPLETED)
    ∧ validateBooking dbDup 0 1 2 3 10 600 = some .duplicateBooking
    ∧ createBooking dbDup 0 99 1 2 3 10 600 9 = .error .duplicateBooking := by
  refine ⟨by decide, by decide, by rfl⟩

/-- C4 (amended): for a request that passes every earlier validation step,
createBooking fails with Duplicate iff the patient already holds a booking
with the same doctor on the same date whose status is neither CANCELLED
nor NO_SHOW — so a COMPLETED booking also blocks — regardless of the
requested time slot; otherwise creation proceeds. -/
theorem duplicate_rule (db : DB) (today pid did sid date t : Nat)
    (patient doctor : UserRec) (service : Service) (wh : WorkingHours)
    (hdate : ¬ date < today)
    (hpf : db.users.find? (fun u => u.id == pid) = some patient)
    (hpr : patient.role = .PATIENT)
    (hdf : db.users.find? (fun u => u.id == did) = some doctor)
    (hdr : doctor.role = .DOCTOR)
    (hda : doctor.isActive = true)
    (hsf : db.services.find? (fun s => s.id == sid) = some service)
    (hsa : service.isActive = true)
    (hwf : db.workingHours.find? (fun wh2 =>
      wh2.doctorId == did && wh2.dayOfWeek == date % 7) = some wh)
    (hws : wh.startTime ≤ t) (hwe : t < wh.endTime)
    (hbr : db.breakTimes.find? (fun bt =>
      bt.doctorId == did && bt.date == date &&
      decide (bt.startTime ≤ t) && decide (t < bt.endTime)) = none)
    (hod : db.offDays.find? (fun od =>
      od.doctorId == did && od.date == date) = none) :
    (validateBooking db today pid did sid date t = some .duplicateBooking ↔
      ∃ b ∈ db.bookings, b.patientId = pid ∧ b.doctorId = did ∧
        b.bookingDate = date ∧ b.status ≠ .CANCELLED ∧ b.status ≠ .NO_SHOW)
    ∧ ((¬ ∃ b ∈ db.bookings, b.patientId = pid ∧ b.doctorId = did ∧
        b.bookingDate = date ∧ b.status ≠ .CANCELLED ∧ b.status ≠ .NO_SHOW) →
      validateBooking db today pid did sid date t = none) := by
  have hval : validateBooking db today pid did sid date t
      = (match db.bookings.find? (fun b =>
          b.patientId == pid && b.doctorId == did &&
          b.bookingDate == date &&
          !([BookingStatus.CANCELLED, BookingStatus.NO_SHOW].contains b.status))
        with
        | some _ => some .duplicateBooking
        | none => none) := by
    have hwb : ¬ ((decide (t < wh.startTime) ||
        decide (wh.endTime ≤ t)) = true) := by
      simp only [Bool.or_eq_true, decide_eq_true_eq]
      omega
    simp only [validateBooking, if_neg hdate, hpf, hdf, hsf, hwf, hbr, hod,
      hpr, hdr, hda, hsa, bne_self_eq_false, Bool.not_true,
      Bool.false_eq_true, if_false, if_neg hwb]
  rw [hval]
  constructor
  · cases hfd : db.bookings.find? (fun b =>
        b.patientId == pid && b.doctorId == did && b.bookingDate == date &&
        !([BookingStatus.CANCELLED, BookingStatus.NO_SHOW].contains b.status))
      with
    | none =>
      simp only [hfd]
      constructor
      · intro h
        exact absurd h (by simp)
      · rintro ⟨b, hbmem, h1, h2, h3, h4, h5⟩
        rw [List.find?_eq_none] at hfd
        exact absurd ((dupPred_iff b pid did date).mpr ⟨h1, h2, h3, h4, h5⟩)
          (hfd b hbmem)
    | some x =>
      simp only [hfd]
      constructor
      · intro _
        have hxm := List.mem_of_find?_eq_some hfd
        have hxp := List.find?_some hfd
        obtain ⟨h1, h2, h3, h4, h5⟩ := (dupPred_iff x pid did date).mp hxp
        exact ⟨x, hxm, h1, h2, h3, h4, h5⟩
      · intro _
        trivial
  · intro hno
    cases hfd : db.bookings.find? (fun b =>
        b.patientId == pid && b.doctorId == did && b.bookingDate == date &&
        !([BookingStatus.CANCELLED, BookingStatus.NO_SHOW].contains b.status))
      with
    | none => rfl
    | some x =>
      have hxm := List.mem_of_find?_eq_some hfd
      have hxp := List.find?_some hfd
      obtain ⟨h1, h2, h3, h4, h5⟩ := (dupPred_iff x pid did date).mp hxp
      exact absurd ⟨x, hxm, h1, h2, h3, h4, h5⟩ hno

/-- C4 (witness): on `dbDup` the amended rule fires — the COMPLETED
booking makes the new request fail with Duplicate. -/
theorem duplicate_rule_witness :
    validateBooking dbDup 0 1 2 3 10 600 = some .duplicateBooking :=
  (duplicate_rule dbDup 0 1 2 3 10 600 ⟨1, .PATIENT, true⟩ ⟨2, .DOCTOR, true⟩
    ⟨3, 30, 2, true⟩ ⟨2, 3, 540, 720⟩ (by decide) rfl rfl rfl rfl rfl rfl rfl
    rfl (by decide) (by decide) rfl rfl).1.mpr
    ⟨⟨50, 1, 2, 3, 10, 540, 570, .COMPLETED⟩, by decide, rfl, rfl, rfl,
      by decide, by decide⟩

/-- C5: `updateStatus` succeeds exactly on the (current, target) pairs of
the spec's transition table — PENDING to CONFIRMED or CANCELLED, CONFIRMED
to CHECKED_IN, CANCELLED or NO_SHOW, CHECKED_IN to IN_PROGRESS or
CANCELLED, IN_PROGRESS to COMPLETED, QUEUED to CONFIRMED or CANCELLED,
with COMPLETED, CANCELLED and NO_SHOW terminal; any pair outside the table
fails with invalidTransition carrying both states before any write, and an
allowed pair updates exactly that booking's status, appends one history
row and leaves the queue untouched. -/
theorem transition_legality (db : DB) (id : Nat) (tgt : BookingStatus)
    (actor : Nat) (reason : String) (b : Booking)
    (hfind : findOne db id = some b) :
    (∀ cur nxt : BookingStatus,
      (validTransitions cur).contains nxt = true ↔
        (cur, nxt) ∈ specTransitionTable)
    ∧ (∀ s : BookingStatus,
        s = .COMPLETED ∨ s = .CANCELLED ∨ s = .NO_SHOW →
          validTransitions s = [])
    ∧ ((b.status, tgt) ∉ specTransitionTable →
        updateStatus db id tgt actor reason
          = .error (.invalidTransition b.status tgt))
    ∧ ((b.status, tgt) ∈ specTransitionTable →
        ∃ db2, updateStatus db id tgt actor reason = .ok db2 ∧
          findOne db2 id = some { b with status := tgt } ∧
          db2.history = db.history ++ [⟨id, some b.status, tgt, actor, reason⟩] ∧
          db2.queue = db.queue) := by
  have htable : ∀ cur nxt : BookingStatus,
      (validTransitions cur).contains nxt = true ↔
        (cur, nxt) ∈ specTransitionTable := by
    intro cur nxt
    cases cur <;> cases nxt <;> decide
  refine ⟨htable, ?_, ?_, ?_⟩
  · rintro s (h | h | h) <;> rw [h] <;> rfl
  · intro hmem
    have hc : (validTransitions b.status).contains tgt = false := by
      rw [Bool.eq_false_iff]
      intro hcon
      exact hmem ((htable b.status tgt).mp hcon)
    simp only [updateStatus, hfind, hc, Bool.false_eq_true, if_false]
  · intro hmem
    have hc : (validTransitions b.status).contains tgt = true :=
      (htable b.status tgt).mpr hmem
    simp only [updateStatus, hfind, hc, if_true]
    have hfo : findOne
        { db with
          bookings := db.bookings.map (fun x =>
            if x.id == id then { x with status := tgt } else x)
          history := db.history ++ [⟨id, some b.status, tgt, actor, reason⟩] }
        id = some { b with status := tgt } := by
      unfold findOne
      simp only []
      rw [find?_map_setStatus]
      unfold findOne at hfind
      rw [hfind]
      rfl
    by_cases hcc :
        (tgt == BookingStatus.CANCELLED || tgt == BookingStatus.COMPLETED)
          = true
    · rw [if_pos hcc]
      exact ⟨_, rfl, hfo, rfl, rfl⟩
    · rw [if_neg hcc]
      exact ⟨_, rfl, hfo, rfl, rfl⟩

/-- C5 (witness): on `db5` the terminal booking 1 (COMPLETED) rejects the
transition to CONFIRMED with invalidTransition carrying both states. -/
theorem transition_legality_witness :
    findOne db5 1 = some ⟨1, 7, 5, 3, 10, 540, 570, .COMPLETED⟩
    ∧ updateStatus db5 1 .CONFIRMED 9 "r"
      = .error (.invalidTransition .COMPLETED .CONFIRMED) :=
  ⟨rfl,
   (transition_legality db5 1 .CONFIRMED 9 "r"
     ⟨1, 7, 5, 3, 10, 540, 570, .COMPLETED⟩ rfl).2.2.1 (by decide)⟩

/-- C6: for a working-hours window [S,E) and positive duration D with no
breaks, `generateTimeSlots` returns exactly floor((E-S-D)/30)+1 slot-start
times when E-S is at least D and the empty sequence otherwise; the slots
are S, S+30, S+60, ... (a fixed 30-minute stride independent of D) and
every returned slot t satisfies t + D <= E, so a slot ending exactly at
closing time is allowed. -/
theorem grid_correctness (s e d : Nat) (hd : 0 < d) (hse : s ≤ e) :
    (d ≤ e - s → (generateTimeSlots s e d).length = (e - s - d) / 30 + 1)
    ∧ (e - s < d → generateTimeSlots s e d = [])
    ∧ generateTimeSlots s e d
        = (List.range (generateTimeSlots s e d).length).map
            (fun i => s + 30 * i)
    ∧ (∀ t ∈ generateTimeSlots s e d, t + d ≤ e) := by
  have hEq := generateTimeSlots_eq s e d
  refine ⟨?_, ?_, ?_, ?_⟩
  · intro hle
    rw [hEq, List.length_map, List.length_range]
    unfold slotCount
    rw [if_pos (by omega)]
  · intro hlt
    rw [hEq]
    unfold slotCount
    rw [if_neg (by omega)]
    simp
  · conv_lhs => rw [hEq]
    rw [hEq, List.length_map, List.length_range]
  · intro t ht
    rw [hEq] at ht
    simp only [List.mem_map, List.mem_range] at ht
    obtain ⟨i, hi, rfl⟩ := ht
    unfold slotCount at hi
    by_cases hc : s + d ≤ e
    · rw [if_pos hc] at hi
      omega
    · rw [if_neg hc] at hi
      omega

/-- C6 (witness): the window 540-720 with duration 60 yields the five
slots 540, 570, 600, 630, 660. -/
theorem grid_correctness_witness :
    ((0:Nat) < 60 ∧ (540:Nat) ≤ 720)
    ∧ ((60 ≤ 720 - 540 →
        (generateTimeSlots 540 720 60).length = (720 - 540 - 60) / 30 + 1)
    ∧ (720 - 540 < 60 → generateTimeSlots 540 720 60 = [])
    ∧ generateTimeSlots 540 720 60
        = (List.range (generateTimeSlots 540 720 60).length).map
            (fun i => 540 + 30 * i)
    ∧ (∀ t ∈ generateTimeSlots 540 720 60, t + 60 ≤ 720)) :=
  ⟨⟨by decide, by decide⟩, grid_correctness 540 720 60 (by decide) (by decide)⟩

/-- C7: a candidate slot conflicts with a break — and is then excluded
from the generated grid — iff its half-open service interval [t, t+D)
intersects the break's [bs, be): the test is t < be and t + D > bs, so a
slot ending exactly at the break's start, or starting exactly at the
break's end, is not excluded; and a slot survives the break filter iff it
is on the grid and conflicts with no break. -/
theorem break_exclusion (t d bs be : Nat) (hd : 0 < d) (hbe : bs < be) :
    (isTimeConflict t d bs be = true ↔
      ∃ x, t ≤ x ∧ x < t + d ∧ bs ≤ x ∧ x < be)
    ∧ (t + d = bs → isTimeConflict t d bs be = false)
    ∧ (t = be → isTimeConflict t d bs be = false)
    ∧ (∀ (s e : Nat) (breaks : List (Nat × Nat)) (u : Nat),
        u ∈ slotsAfterBreaks s e d breaks ↔
          u ∈ generateTimeSlots s e d ∧
            ∀ br ∈ breaks, isTimeConflict u d br.1 br.2 = false) := by
  refine ⟨?_, ?_, ?_, ?_⟩
  · unfold isTimeConflict
    simp only [Bool.and_eq_true, decide_eq_true_eq, gt_iff_lt]
    constructor
    · rintro ⟨h1, h2⟩
      exact ⟨max t bs, le_max_left _ _, by omega, le_max_right _ _, by omega⟩
    · rintro ⟨x, hx1, hx2, hx3, hx4⟩
      omega
  · intro h
    unfold isTimeConflict
    simp only [Bool.and_eq_false_iff, decide_eq_false_iff_not, gt_iff_lt]
    omega
  · intro h
    unfold isTimeConflict
    simp only [Bool.and_eq_false_iff, decide_eq_false_iff_not, gt_iff_lt]
    omega
  · intro s e breaks u
    unfold slotsAfterBreaks
    rw [List.mem_filter]
    simp only [Bool.not_eq_true']
    rw [List.any_eq_false]
    simp only [Bool.not_eq_true]

/-- C7 (witness): with duration 60 and break 660-690, the slot 600 ends
exactly at the break's start and is not excluded. -/
theorem break_exclusion_witness :
    ((0:Nat) < 60 ∧ (660:Nat) < 690)
    ∧ ((isTimeConflict 600 60 660 690 = true ↔
        ∃ x, 600 ≤ x ∧ x < 600 + 60 ∧ 660 ≤ x ∧ x < 690)
    ∧ (600 + 60 = 660 → isTimeConflict 600 60 660 690 = false)
    ∧ (600 = 690 → isTimeConflict 600 60 660 690 = false)
    ∧ (∀ (s e : Nat) (breaks : List (Nat × Nat)) (u : Nat),
        u ∈ slotsAfterBreaks s e 60 breaks ↔
          u ∈ generateTimeSlots s e 60 ∧
            ∀ br ∈ breaks, isTimeConflict u 60 br.1 br.2 = false)) :=
  ⟨⟨by decide, by decide⟩, break_exclusion 600 60 660 690 (by decide) (by decide)⟩

/-- C8: `checkSlotAvailability` reports available iff the number of
bookings matching the doctor, date and exact startTime whose status is
PENDING, CONFIRMED, CHECKED_IN or IN_PROGRESS is strictly below
maxSlotsPerHour; adding a booking whose status is CANCELLED, NO_SHOW,
COMPLETED or QUEUED, or one at any other startTime (even with an
overlapping interval), never changes the result. -/
theorem availability_correct (db : DB) (doc date t cap : Nat) :
    (checkSlotAvailability db doc date t cap = true ↔
      (db.bookings.filter (fun b =>
        b.doctorId == doc && b.bookingDate == date && b.startTime == t &&
        occupyingStatuses.contains b.status)).length < cap)
    ∧ (∀ b : Booking,
        b.status = .CANCELLED ∨ b.status = .NO_SHOW ∨ b.status = .COMPLETED ∨
          b.status = .QUEUED →
        checkSlotAvailability { db with bookings := b :: db.bookings } doc
            date t cap
          = checkSlotAvailability db doc date t cap)
    ∧ (∀ b : Booking, b.startTime ≠ t →
        checkSlotAvailability { db with bookings := b :: db.bookings } doc
            date t cap
          = checkSlotAvailability db doc date t cap) := by
  refine ⟨by unfold checkSlotAvailability; simp, ?_, ?_⟩
  · intro b hb
    unfold checkSlotAvailability
    have hocc : occupyingStatuses.contains b.status = false := by
      rcases hb with h | h | h | h <;> rw [h] <;> rfl
    simp only [List.filter_cons, hocc, Bool.and_false,
      if_neg (by simp : ¬ (false = true))]
  · intro b hb
    unfold checkSlotAvailability
    have hst : (b.startTime == t) = false := by
      simp [hb]
    simp only [List.filter_cons, hst, Bool.false_and, Bool.and_false,
      Bool.false_and, if_neg (by simp : ¬ (false = true))]

/-- C8 (witness): on `dbAvail` (one PENDING occupant, capacity 2) the slot
is available, and adding a QUEUED booking of the same group does not
change the availability result. -/
theorem availability_correct_witness :
    checkSlotAvailability dbAvail 1 0 540 2 = true
    ∧ checkSlotAvailability
        { dbAvail with bookings := bQueuedW :: dbAvail.bookings } 1 0 540 2
      = checkSlotAvailability dbAvail 1 0 540 2 :=
  ⟨by decide,
   (availability_correct dbAvail 1 0 540 2).2.1 bQueuedW
     (Or.inr (Or.inr (Or.inr rfl)))⟩

/-- C9: when the queue entry of a QUEUED booking at position p is deleted
by `removeFromQueue` or by `promoteBooking`, the surviving live entries of
its (doctorId, date, startTime) group are exactly the original ones in
their original FIFO order, with every position above p decremented by
exactly 1 and its estimated wait decremented by a flat 30 minutes
(independent of the service's duration); consequently, if the live
positions formed the contiguous range 1..N before, they form 1..N-1
afterwards. -/
theorem queue_shift_contiguity (db : DB) (bid N actor : Nat) (reason : String)
    (e0 : QueueEntry) (b0 : Booking)
    (hnd : (db.queue.map QueueEntry.bookingId).Nodup)
    (hfind : db.queue.find? (fun e => e.bookingId == bid) = some e0)
    (hb : findOne db bid = some b0)
    (hq : b0.status = .QUEUED)
    (hperm : ((liveGroupEntries db b0.doctorId b0.bookingDate
        b0.startTime).map QueueEntry.queuePosition).Perm (List.range' 1 N)) :
    (liveGroupEntries (removeFromQueue db bid) b0.doctorId b0.bookingDate
        b0.startTime
      = ((liveGroupEntries db b0.doctorId b0.bookingDate b0.startTime).filter
          (fun e => e.bookingId != bid)).map (shiftedEntry e0.queuePosition)
     ∧ ((liveGroupEntries (removeFromQueue db bid) b0.doctorId b0.bookingDate
          b0.startTime).map QueueEntry.queuePosition).Perm
        (List.range' 1 (N - 1)))
    ∧ (∃ db2, promoteBooking db bid actor reason = .ok db2
       ∧ liveGroupEntries db2 b0.doctorId b0.bookingDate b0.startTime
         = ((liveGroupEntries db b0.doctorId b0.bookingDate
             b0.startTime).filter (fun e => e.bookingId != bid)).map
              (shiftedEntry e0.queuePosition)
       ∧ ((liveGroupEntries db2 b0.doctorId b0.bookingDate b0.startTime).map
           QueueEntry.queuePosition).Perm (List.range' 1 (N - 1))) := by
  obtain ⟨hmemlive, hbid⟩ := e0_mem_live db bid e0 b0 hfind hb hq
  have hndlive : ((liveGroupEntries db b0.doctorId b0.bookingDate
      b0.startTime).map QueueEntry.bookingId).Nodup :=
    List.Nodup.sublist
      ((List.filter_sublist db.queue).map QueueEntry.bookingId) hnd
  constructor
  · have hA := removeFromQueue_live db bid e0 b0 hfind hb
    exact ⟨hA, live_positions_perm _ db _ _ _ bid N e0 hA hmemlive hbid
      hndlive hperm⟩
  · obtain ⟨db2, hok, hA⟩ := promoteBooking_live db bid actor reason e0 b0
      hfind hb
    exact ⟨db2, hok, hA, live_positions_perm db2 db _ _ _ bid N e0 hA hmemlive
      hbid hndlive hperm⟩

/-- C9 (witness): on `dbQ9` (live positions 1, 2, 3), deleting the
position-2 entry by removal or promotion shifts the survivors to
positions 1, 2. -/
theorem queue_shift_contiguity_witness :
    (liveGroupEntries (removeFromQueue dbQ9 12) 5 10 540
      = ((liveGroupEntries dbQ9 5 10 540).filter
          (fun e => e.bookingId != 12)).map (shiftedEntry 2)
     ∧ ((liveGroupEntries (removeFromQueue dbQ9 12) 5 10 540).map
          QueueEntry.queuePosition).Perm (List.range' 1 2))
    ∧ (∃ db2, promoteBooking dbQ9 12 0 "promote" = .ok db2
       ∧ liveGroupEntries db2 5 10 540
         = ((liveGroupEntries dbQ9 5 10 540).filter
             (fun e => e.bookingId != 12)).map (shiftedEntry 2)
       ∧ ((liveGroupEntries db2 5 10 540).map QueueEntry.queuePosition).Perm
           (List.range' 1 2)) :=
  queue_shift_contiguity dbQ9 12 3 0 "promote" ⟨12, 2, 60⟩ bQ12 (by decide)
    (by decide) rfl rfl (by decide)

/-- C10: `calculateEndTime` renders floor((60*HH + mm + D)/60) as the hour
component with no modulo-24 wrap or range validation, so the booking
created for startTime 23:30 with a 45-minute duration stores the end time
string "24:15", which is not a valid HH:mm time of day. -/
theorem end_time_unwrapped :
    (∀ h m d : Nat,
      calculateEndTime h m d
        = pad2 (Nat.repr ((h * 60 + m + d) / 60)) ++ ":"
            ++ pad2 (Nat.repr ((h * 60 + m + d) % 60)))
    ∧ calculateEndTime 23 30 45 = "24:15"
    ∧ ¬ isValidHHmm "24:15" := by
  refine ⟨fun h m d => rfl, by decide, by decide⟩

end ClinicFlow
